import Mathlib

/-!
Verification of the grade-aggregation core of `canvas_grade_calculator.py`.

The embedding models Python floats as exact rationals (`ℚ`), Python dicts
as insertion-ordered association lists, `Optional` values as `Option`, and
functions that raise as `Except String`.  Each definition mirrors the
source function of the same name.
-/

namespace Canvas

/-- Mirrors the pydantic `Submission` model (fields the core reads). -/
structure Submission where
  score : Option ℚ
  missing : Option Bool
  excused : Option Bool
deriving Repr, DecidableEq

/-- Mirrors the pydantic `Assignment` model (fields the core reads). -/
structure Assignment where
  id : Int
  name : String
  points_possible : Option ℚ
  assignment_group_id : Option Int
  published : Option Bool
  submission : Option Submission
deriving Repr, DecidableEq

/-- Mirrors the pydantic `AssignmentGroup` model. -/
structure AssignmentGroup where
  id : Int
  name : String
  group_weight : Option ℚ
deriving Repr, DecidableEq

/-- Mirrors the pydantic `CategoryResult` model. -/
structure CategoryResult where
  group_id : Int
  group_name : String
  weight_pct : ℚ
  running_earned : ℚ
  running_possible : ℚ
  running_pct : Option ℚ
  final_earned : ℚ
  final_possible : ℚ
  final_pct : Option ℚ
deriving Repr, DecidableEq

/-- A Python dict `str -> float` as an insertion-ordered association list. -/
abbrev StrDict := List (String × ℚ)

/-- Sum of a dict's values: Python `sum(d.values())`. -/
def sumVals (d : StrDict) : ℚ := (d.map Prod.snd).sum

/-- Python `d[k] = v` on a dict: update in place if the key exists,
otherwise append at the end (insertion order preserved). -/
def dictInsert (k : String) (v : ℚ) : StrDict → StrDict
  | [] => [(k, v)]
  | (k', v') :: rest =>
      if k' = k then (k', v) :: rest else (k', v') :: dictInsert k v rest

/-- Python `d.get(k, default)`. -/
def dictGet (d : StrDict) (k : String) (dflt : ℚ) : ℚ :=
  match d.find? (fun kv => kv.1 == k) with
  | some kv => kv.2
  | none => dflt

/-- Source function `normalize_weights`: rescale every value by `100 / total`; raises
`ValueError` when the total is not positive. -/
def normalize_weights (weights : StrDict) : Except String StrDict :=
  let total := sumVals weights
  if total ≤ 0 then .error "Sum of weights must be > 0"
  else .ok (weights.map fun kv => (kv.1, kv.2 / total * 100))

/-- Source dataclass `WeightPlan`: normalized percentage keyed by group name. -/
structure WeightPlan where
  by_group_name : StrDict
deriving Repr, DecidableEq

/-- Python truthiness of an `Optional[Dict]`: `None` and `{}` are falsy. -/
def pyTruthyDict : Option StrDict → Bool
  | some d => d ≠ []
  | none => false

/-- The dict `canvas_defined` built inside `WeightPlan.from_user`: every
group whose `group_weight` is non-null, keyed by name (later groups with
the same name overwrite earlier values). -/
def canvasDefined (canvas_groups : List AssignmentGroup) : StrDict :=
  canvas_groups.foldl
    (fun acc g =>
      match g.group_weight with
      | some w => dictInsert g.name w acc
      | none => acc)
    []

/-- Source classmethod `WeightPlan.from_user`: explicit user weights win when truthy; else
source weights, scaled by 100 when their sum lies in `(0, 1.001]`, then
normalized.  Raises when no source group has a weight. -/
def WeightPlan.from_user (user_weights : Option StrDict)
    (canvas_groups : List AssignmentGroup) : Except String WeightPlan :=
  if pyTruthyDict user_weights then
    (normalize_weights ((user_weights).getD [])).map WeightPlan.mk
  else
    let canvas_defined := canvasDefined canvas_groups
    if canvas_defined = [] then
      .error "No weights provided and course does not have weighted assignment groups in Canvas."
    else
      let total := sumVals canvas_defined
      let canvas_defined :=
        if 0 < total ∧ total ≤ 1001 / 1000 then
          canvas_defined.map fun kv => (kv.1, kv.2 * 100)
        else canvas_defined
      (normalize_weights canvas_defined).map WeightPlan.mk

/-- The three `FinalPolicy` constants. -/
def FinalPolicy.IGNORE_ALL : String := "ignore_all"

/-- Default final policy. -/
def FinalPolicy.MISSING_ZERO_UPCOMING_IGNORE : String := "missing_zero_upcoming_ignore"

/-- Strictest final policy. -/
def FinalPolicy.ALL_ZERO : String := "all_zero"

/-- Mirrors the `Tally` dataclass. -/
structure Tally where
  earned : ℚ
  possible : ℚ
deriving Repr, DecidableEq

/-- Local flag `is_graded` of the tally loop: a submission exists, has a score, and is
not excused. -/
def Assignment.is_graded (a : Assignment) : Bool :=
  match a.submission with
  | none => false
  | some s => s.score.isSome && !(s.excused == some true)

/-- Local flag `is_missing` of the tally loop: `bool(sub and sub.missing)`. -/
def Assignment.is_missing (a : Assignment) : Bool :=
  match a.submission with
  | none => false
  | some s => s.missing == some true

/-- Python expression `max(0.0, float(sub.score))` — the clamped score used
on accumulation. -/
def Assignment.clampedScore (a : Assignment) : ℚ :=
  max 0 ((a.submission.bind Submission.score).getD 0)

/-- Python expression `a.points_possible or 0.0`. -/
def Assignment.pts (a : Assignment) : ℚ :=
  a.points_possible.getD 0

/-- One iteration of the tally loop in `compute_category_results`: filters
unpublished and non-positive-point assignments, then updates the running
tally (graded work only) and the final tally per the policy. -/
def processAssignment (final_policy : String) (acc : Tally × Tally)
    (a : Assignment) : Tally × Tally :=
  if !(a.published.getD false) then acc
  else if a.pts ≤ 0 then acc
  else
    let running := acc.1
    let final := acc.2
    let running' :=
      if a.is_graded then
        ⟨running.earned + a.clampedScore, running.possible + a.pts⟩
      else running
    let final' :=
      if final_policy = FinalPolicy.IGNORE_ALL then
        if a.is_graded then
          ⟨final.earned + a.clampedScore, final.possible + a.pts⟩
        else final
      else if final_policy = FinalPolicy.ALL_ZERO then
        ⟨if a.is_graded then final.earned + a.clampedScore else final.earned,
         final.possible + a.pts⟩
      else
        if a.is_graded then
          ⟨final.earned + a.clampedScore, final.possible + a.pts⟩
        else if a.is_missing then ⟨final.earned, final.possible + a.pts⟩
        else final
    (running', final')

/-- The whole tally loop for one category's assignment list. -/
def computeTallies (final_policy : String) (assignments : List Assignment) :
    Tally × Tally :=
  assignments.foldl (processAssignment final_policy) (⟨0, 0⟩, ⟨0, 0⟩)

/-- Percentage derivation: `earned / possible * 100` when possible is
positive, else absent. -/
def pctOf (t : Tally) : Option ℚ :=
  if t.possible > 0 then some (t.earned / t.possible * 100) else none

/-- The `CategoryResult` built by `compute_category_results` for one
category (the per-category body of its loop). -/
def categoryResultFor (g : AssignmentGroup) (weight_plan : WeightPlan)
    (final_policy : String) (assignments : List Assignment) : CategoryResult :=
  let weight_pct := dictGet weight_plan.by_group_name g.name 0
  let t := computeTallies final_policy assignments
  { group_id := g.id
    group_name := g.name
    weight_pct := weight_pct
    running_earned := t.1.earned
    running_possible := t.1.possible
    running_pct := pctOf t.1
    final_earned := t.2.earned
    final_possible := t.2.possible
    final_pct := pctOf t.2 }

/-- The contribution `pct * weight / 100` of one category percentage to a
rollup sum, zero when the percentage is absent. -/
def pctContrib (pct : Option ℚ) (w : ℚ) : ℚ :=
  match pct with
  | some p => p * w / 100
  | none => 0

/-- One iteration of the `weighted_total` loop over the triple
`(running_sum, final_sum, weight_total)`. -/
def rollupStep (acc : ℚ × ℚ × ℚ) (c : CategoryResult) : ℚ × ℚ × ℚ :=
  if c.weight_pct ≤ 0 then acc
  else
    (acc.1 + pctContrib c.running_pct c.weight_pct,
     acc.2.1 + pctContrib c.final_pct c.weight_pct,
     acc.2.2 + c.weight_pct)

/-- The accumulated `(running_sum, final_sum, weight_total)` triple after
the `weighted_total` loop. -/
def rollupAcc (categories : List CategoryResult) : ℚ × ℚ × ℚ :=
  categories.foldl rollupStep (0, 0, 0)

/-- Source function `weighted_total`: weighted sums of the present category percentages,
renormalized by the accumulated positive weight. -/
def weighted_total (categories : List CategoryResult) :
    Option ℚ × Option ℚ :=
  if (rollupAcc categories).2.2 = 0 then (none, none)
  else
    (some ((rollupAcc categories).1 * (100 / (rollupAcc categories).2.2)),
     some ((rollupAcc categories).2.1 * (100 / (rollupAcc categories).2.2)))

/-- A key of the config's `by_course_id` dicts: YAML/JSON may carry the
course id as a string or as a number. -/
inductive ConfigKey where
  | str (s : String)
  | int (n : Int)
deriving Repr, DecidableEq, BEq

/-- Python `k in d` / `d[k]` on a `by_course_id` dict. -/
def keyLookup {α : Type} (d : List (ConfigKey × α)) (k : ConfigKey) : Option α :=
  (d.find? (fun kv => kv.1 == k)).map Prod.snd

/-- The shape `load_config` guarantees for the fields the precedence
resolvers read. -/
structure Config where
  weights_default : Option StrDict
  weights_by_course_id : List (ConfigKey × StrDict)
  policy_default : Option String
  policy_by_course_id : List (ConfigKey × String)

/-- Python truthiness of an `Optional[str]`: `None` and `""` are falsy. -/
def pyTruthyStr : Option String → Bool
  | some s => decide (s ≠ "")
  | none => false

/-- Source function `get_effective_weights`: CLI weights, else config per-course (string
key then int key), else config default (may be `None`: the caller then
falls back to the Canvas group weights). -/
def get_effective_weights (course_id : Int) (cli_weights : Option StrDict)
    (cfg : Config) : Option StrDict :=
  if pyTruthyDict cli_weights then cli_weights
  else
    match keyLookup cfg.weights_by_course_id (ConfigKey.str (toString course_id)) with
    | some w => some w
    | none =>
      match keyLookup cfg.weights_by_course_id (ConfigKey.int course_id) with
      | some w => some w
      | none => cfg.weights_default

/-- Source function `get_effective_policy`: CLI policy, else config per-course (string key
then int key), else `config default or MISSING_ZERO_UPCOMING_IGNORE`. -/
def get_effective_policy (course_id : Int) (cli_policy : Option String)
    (cfg : Config) : String :=
  if pyTruthyStr cli_policy then cli_policy.getD ""
  else
    match keyLookup cfg.policy_by_course_id (ConfigKey.str (toString course_id)) with
    | some p => p
    | none =>
      match keyLookup cfg.policy_by_course_id (ConfigKey.int course_id) with
      | some p => p
      | none =>
        if pyTruthyStr cfg.policy_default then cfg.policy_default.getD ""
        else FinalPolicy.MISSING_ZERO_UPCOMING_IGNORE

/-! Concrete inputs used by the spec's scenarios and by witnesses. -/

/-- Scenario C, category "Homework": weight 40, running percentage 90. -/
def scenarioC_hw : CategoryResult :=
  ⟨1, "Homework", 40, 90, 100, some 90, 90, 100, some 90⟩

/-- Scenario C, category "Exams": weight 60, no graded work, absent
percentages. -/
def scenarioC_ex : CategoryResult :=
  ⟨2, "Exams", 60, 0, 0, none, 0, 0, none⟩

/-- Scenario A, assignment A: 10 points, graded, score 8. -/
def scenarioA_graded : Assignment :=
  ⟨1, "A", some 10, some 1, some true, some ⟨some 8, none, none⟩⟩

/-- Scenario A, assignment B: 10 points, ungraded, not missing. -/
def scenarioA_ungraded : Assignment :=
  ⟨2, "B", some 10, some 1, some true, some ⟨none, none, none⟩⟩

/-- Scenario B, assignment B: 10 points, ungraded, flagged missing. -/
def scenarioB_missing : Assignment :=
  ⟨2, "B", some 10, some 1, some true, some ⟨none, some true, none⟩⟩

/-- Scenario D source groups: weights 0.4 and 0.6. -/
def scenarioD_groups : List AssignmentGroup :=
  [⟨1, "A", some (2 / 5)⟩, ⟨2, "B", some (3 / 5)⟩]

/-- A weighted category with positive weight and no percentages, for the
no-graded-work rollup witness. -/
def emptyWeightedCat : CategoryResult :=
  ⟨3, "Projects", 40, 0, 0, none, 0, 0, none⟩

/-- A sample group for percentage-derivation witnesses. -/
def sampleGroup : AssignmentGroup := ⟨1, "Homework", none⟩

/-- A sample weight plan for percentage-derivation witnesses. -/
def samplePlan : WeightPlan := ⟨[("Homework", 40)]⟩

/-- A sample configuration for precedence witnesses. -/
def sampleConfig : Config :=
  ⟨some [("HW", 50)], [(ConfigKey.str "101", [("A", 30)])],
   some "all_zero", [(ConfigKey.int 101, "ignore_all")]⟩

/-! Helper lemmas shared by several claims. -/

theorem sumVals_nil : sumVals [] = 0 := rfl

theorem sumVals_cons (kv : String × ℚ) (l : StrDict) :
    sumVals (kv :: l) = kv.2 + sumVals l := by
  simp [sumVals]

theorem sumVals_map_div_mul (l : StrDict) (c d : ℚ) :
    sumVals (l.map fun kv => (kv.1, kv.2 / c * d)) = sumVals l / c * d := by
  induction l with
  | nil => simp [sumVals]
  | cons kv rest ih =>
      simp only [List.map_cons, sumVals_cons, ih]
      rw [add_div, add_mul]

theorem sumVals_map_mul (l : StrDict) (c : ℚ) :
    sumVals (l.map fun kv => (kv.1, kv.2 * c)) = sumVals l * c := by
  induction l with
  | nil => simp [sumVals]
  | cons kv rest ih =>
      simp only [List.map_cons, sumVals_cons, ih]
      rw [add_mul]

/-! The claims. -/

/-- Claim C1 counterexample: in Scenario C (category "Homework" with
weight 40 and running percentage 90, category "Exams" with weight 60 and
an absent running percentage), `weighted_total` does not report a running
total of 90%: the absent category's weight still enters the denominator. -/
theorem c1_counterexample :
    (weighted_total [scenarioC_hw, scenarioC_ex]).1 ≠ some (90 : ℚ) := by
  norm_num [weighted_total, rollupAcc, rollupStep, pctContrib, scenarioC_hw, scenarioC_ex]

/-- Claim C1 (amended): in Scenario C the rollup keeps Exams' weight 60 in
the renormalization denominator even though its running percentage is
absent, so the running total is 90 · 40 / 100 = 36%, not 90%. -/
theorem c1_rollup_keeps_absent_weight :
    (weighted_total [scenarioC_hw, scenarioC_ex]).1 = some (36 : ℚ) := by
  norm_num [weighted_total, rollupAcc, rollupStep, pctContrib, scenarioC_hw, scenarioC_ex]

/-- Claim C2: under `missing_zero_upcoming_ignore`, a filtered assignment
(published, positive points) updates the tallies as follows: graded work
adds its clamped score and its points to both running and final; ungraded
missing work adds only its points to final possible; ungraded not-missing
work contributes nothing.  Scenario A gives running 80% and final 80%;
Scenario B gives final 40%. -/
theorem c2_missing_zero_final_tally (a : Assignment) (r f : Tally)
    (hpub : a.published.getD false = true) (hpts : 0 < a.pts) :
    ((a.is_graded = true →
        processAssignment FinalPolicy.MISSING_ZERO_UPCOMING_IGNORE (r, f) a =
          (⟨r.earned + a.clampedScore, r.possible + a.pts⟩,
           ⟨f.earned + a.clampedScore, f.possible + a.pts⟩)) ∧
      (a.is_graded = false → a.is_missing = true →
        processAssignment FinalPolicy.MISSING_ZERO_UPCOMING_IGNORE (r, f) a =
          (r, ⟨f.earned, f.possible + a.pts⟩)) ∧
      (a.is_graded = false → a.is_missing = false →
        processAssignment FinalPolicy.MISSING_ZERO_UPCOMING_IGNORE (r, f) a =
          (r, f))) ∧
    pctOf (computeTallies FinalPolicy.MISSING_ZERO_UPCOMING_IGNORE
        [scenarioA_graded, scenarioA_ungraded]).1 = some 80 ∧
    pctOf (computeTallies FinalPolicy.MISSING_ZERO_UPCOMING_IGNORE
        [scenarioA_graded, scenarioA_ungraded]).2 = some 80 ∧
    pctOf (computeTallies FinalPolicy.MISSING_ZERO_UPCOMING_IGNORE
        [scenarioA_graded, scenarioB_missing]).2 = some 40 := by
  refine ⟨⟨?_, ?_, ?_⟩, ?_, ?_, ?_⟩
  · intro hg
    simp [processAssignment, FinalPolicy.MISSING_ZERO_UPCOMING_IGNORE,
      FinalPolicy.IGNORE_ALL, FinalPolicy.ALL_ZERO, hpub, hg, hpts.not_le]
  · intro hg hm
    simp [processAssignment, FinalPolicy.MISSING_ZERO_UPCOMING_IGNORE,
      FinalPolicy.IGNORE_ALL, FinalPolicy.ALL_ZERO, hpub, hg, hm, hpts.not_le]
  · intro hg hm
    simp [processAssignment, FinalPolicy.MISSING_ZERO_UPCOMING_IGNORE,
      FinalPolicy.IGNORE_ALL, FinalPolicy.ALL_ZERO, hpub, hg, hm, hpts.not_le]
  · simp [pctOf, computeTallies, processAssignment,
      FinalPolicy.MISSING_ZERO_UPCOMING_IGNORE, FinalPolicy.IGNORE_ALL,
      FinalPolicy.ALL_ZERO, scenarioA_graded, scenarioA_ungraded,
      Assignment.pts, Assignment.is_graded, Assignment.is_missing,
      Assignment.clampedScore]
    norm_num
  · simp [pctOf, computeTallies, processAssignment,
      FinalPolicy.MISSING_ZERO_UPCOMING_IGNORE, FinalPolicy.IGNORE_ALL,
      FinalPolicy.ALL_ZERO, scenarioA_graded, scenarioA_ungraded,
      Assignment.pts, Assignment.is_graded, Assignment.is_missing,
      Assignment.clampedScore]
    norm_num
  · simp [pctOf, computeTallies, processAssignment,
      FinalPolicy.MISSING_ZERO_UPCOMING_IGNORE, FinalPolicy.IGNORE_ALL,
      FinalPolicy.ALL_ZERO, scenarioA_graded, scenarioB_missing,
      Assignment.pts, Assignment.is_graded, Assignment.is_missing,
      Assignment.clampedScore]
    norm_num

/-- Witness for claim C2 at Scenario A. -/
theorem c2_missing_zero_final_tally_witness :
    pctOf (computeTallies FinalPolicy.MISSING_ZERO_UPCOMING_IGNORE
        [scenarioA_graded, scenarioA_ungraded]).1 = some 80 :=
  (c2_missing_zero_final_tally scenarioA_graded ⟨0, 0⟩ ⟨0, 0⟩ rfl
      (by norm_num [Assignment.pts, scenarioA_graded])).2.1

/-- Claim C4: a successful `normalize_weights` maps every entry to
`value / sum * 100`, and the resulting values sum to exactly 100 (hence
within 1e-6 of 100). -/
theorem c4_normalized_plan (w p : StrDict) (hne : w ≠ [])
    (h : normalize_weights w = .ok p) :
    p = w.map (fun kv => (kv.1, kv.2 / sumVals w * 100)) ∧ sumVals p = 100 := by
  unfold normalize_weights at h
  by_cases htot : sumVals w ≤ 0
  · simp [htot] at h
  · simp only [htot, if_false] at h
    obtain rfl : (w.map fun kv => (kv.1, kv.2 / sumVals w * 100)) = p :=
      Except.ok.inj h
    refine ⟨rfl, ?_⟩
    rw [sumVals_map_div_mul, div_self (by linarith [not_le.mp htot] : sumVals w ≠ 0)]
    norm_num

/-- Witness for claim C4 at the mapping A ↦ 1, B ↦ 3. -/
theorem c4_normalized_plan_witness :
    ([("A", (25 : ℚ)), ("B", 75)] : StrDict) =
      ([("A", (1 : ℚ)), ("B", 3)] : StrDict).map
        (fun kv => (kv.1, kv.2 / sumVals [("A", (1 : ℚ)), ("B", 3)] * 100)) ∧
    sumVals [("A", (25 : ℚ)), ("B", 75)] = 100 :=
  c4_normalized_plan [("A", 1), ("B", 3)] [("A", 25), ("B", 75)]
    (by simp)
    (by simp only [normalize_weights, sumVals]; norm_num)

/-- Claim C5: with no explicit weights, when the non-null source weights
sum into `(0, 1.001]` they are multiplied by 100 before normalization; in
particular Scenario D's weights 0.4 and 0.6 resolve to 40 and 60. -/
theorem c5_fraction_heuristic (groups : List AssignmentGroup)
    (hne : canvasDefined groups ≠ [])
    (hpos : 0 < sumVals (canvasDefined groups))
    (hle : sumVals (canvasDefined groups) ≤ 1001 / 1000) :
    WeightPlan.from_user none groups =
      (normalize_weights
        ((canvasDefined groups).map fun kv => (kv.1, kv.2 * 100))).map
        WeightPlan.mk ∧
    WeightPlan.from_user none scenarioD_groups =
      .ok ⟨[("A", 40), ("B", 60)]⟩ := by
  constructor
  · simp [WeightPlan.from_user, pyTruthyDict, hne, hpos, hle]
  · simp [WeightPlan.from_user, pyTruthyDict, canvasDefined, dictInsert,
      sumVals, normalize_weights, Except.map, scenarioD_groups]
    norm_num

/-- Witness for claim C5 at Scenario D. -/
theorem c5_fraction_heuristic_witness :
    WeightPlan.from_user none scenarioD_groups =
      .ok ⟨[("A", 40), ("B", 60)]⟩ :=
  (c5_fraction_heuristic scenarioD_groups
      (by simp [canvasDefined, dictInsert, scenarioD_groups])
      (by simp [canvasDefined, dictInsert, scenarioD_groups, sumVals]; norm_num)
      (by simp [canvasDefined, dictInsert, scenarioD_groups, sumVals]; norm_num)).2

/-- Claim C6: `WeightPlan.from_user` fails exactly when the (truthy)
explicit weights sum to a non-positive total, or — with no truthy explicit
weights — when no source group carries a weight or the source-derived
total is non-positive; in every other case it returns a plan. -/
theorem c6_invalid_weight_iff (uw : Option StrDict)
    (groups : List AssignmentGroup) :
    (WeightPlan.from_user uw groups).isOk = false ↔
      (pyTruthyDict uw = true ∧ sumVals (uw.getD []) ≤ 0) ∨
      (pyTruthyDict uw = false ∧
        (canvasDefined groups = [] ∨ sumVals (canvasDefined groups) ≤ 0)) := by
  by_cases ht : pyTruthyDict uw
  · by_cases hs : sumVals (uw.getD []) ≤ 0
    · simp [WeightPlan.from_user, normalize_weights, ht, hs, Except.map,
        Except.isOk, Except.toBool]
    · simp [WeightPlan.from_user, normalize_weights, ht, hs, Except.map,
        Except.isOk, Except.toBool]
  · by_cases hcd : canvasDefined groups = []
    · simp [WeightPlan.from_user, ht, hcd, Except.isOk, Except.toBool]
    · by_cases hs : sumVals (canvasDefined groups) ≤ 0
      · have hno : ¬(0 < sumVals (canvasDefined groups) ∧
            sumVals (canvasDefined groups) ≤ 1001 / 1000) := by
          intro h
          linarith [h.1]
        simp [WeightPlan.from_user, normalize_weights, ht, hcd, hs, hno,
          Except.map, Except.isOk, Except.toBool]
      · have hpos : 0 < sumVals (canvasDefined groups) := not_le.mp hs
        by_cases hb : sumVals (canvasDefined groups) ≤ 1001 / 1000
        · have hscaled :
              ¬ sumVals ((canvasDefined groups).map fun kv =>
                  (kv.1, kv.2 * 100)) ≤ 0 := by
            rw [sumVals_map_mul]
            nlinarith
          simp [WeightPlan.from_user, normalize_weights, ht, hcd, hs, hb,
            hpos, hscaled, Except.map, Except.isOk, Except.toBool]
        · simp [WeightPlan.from_user, normalize_weights, ht, hcd, hs, hb,
            Except.map, Except.isOk, Except.toBool]

/-- Every step of the tally loop can only grow the `possible` fields. -/
theorem processAssignment_possible_le (policy : String)
    (acc : Tally × Tally) (a : Assignment) :
    acc.1.possible ≤ (processAssignment policy acc a).1.possible ∧
    acc.2.possible ≤ (processAssignment policy acc a).2.possible := by
  by_cases hpub : !(a.published.getD false)
  · simp [processAssignment, hpub]
  · by_cases hpts : a.pts ≤ 0
    · simp [processAssignment, hpub, hpts]
    · have h0 : 0 < a.pts := not_le.mp hpts
      simp only [processAssignment, hpub, hpts, if_false, Bool.false_eq_true]
      split_ifs <;> simp <;> linarith

/-- The `possible` fields never shrink along the tally fold. -/
theorem foldl_possible_le (policy : String) (l : List Assignment)
    (init : Tally × Tally) :
    init.1.possible ≤ (l.foldl (processAssignment policy) init).1.possible ∧
    init.2.possible ≤ (l.foldl (processAssignment policy) init).2.possible := by
  induction l generalizing init with
  | nil => simp
  | cons a rest ih =>
      simp only [List.foldl_cons]
      have h1 := processAssignment_possible_le policy init a
      have h2 := ih (processAssignment policy init a)
      exact ⟨le_trans h1.1 h2.1, le_trans h1.2 h2.2⟩

/-- The percentage derivation, characterized for a nonnegative total. -/
theorem pctOf_spec (t : Tally) (h : 0 ≤ t.possible) :
    (pctOf t = none ↔ t.possible = 0) ∧
    (t.possible ≠ 0 → pctOf t = some (t.earned / t.possible * 100)) := by
  by_cases hz : t.possible = 0
  · simp [pctOf, hz]
  · have hp : 0 < t.possible := lt_of_le_of_ne h (Ne.symm hz)
    simp [pctOf, hp, hz]

/-- Claim C7: for a category result, each `possible` total is nonnegative,
the percentage is absent exactly when that total is zero, and otherwise it
equals `earned / possible * 100` — the division-by-zero branch is never
taken and an absent percentage is distinct from 0%. -/
theorem c7_pct_absent_iff (g : AssignmentGroup) (wp : WeightPlan)
    (policy : String) (l : List Assignment) :
    0 ≤ (categoryResultFor g wp policy l).running_possible ∧
    ((categoryResultFor g wp policy l).running_pct = none ↔
      (categoryResultFor g wp policy l).running_possible = 0) ∧
    ((categoryResultFor g wp policy l).running_possible ≠ 0 →
      (categoryResultFor g wp policy l).running_pct =
        some ((categoryResultFor g wp policy l).running_earned /
          (categoryResultFor g wp policy l).running_possible * 100)) ∧
    0 ≤ (categoryResultFor g wp policy l).final_possible ∧
    ((categoryResultFor g wp policy l).final_pct = none ↔
      (categoryResultFor g wp policy l).final_possible = 0) ∧
    ((categoryResultFor g wp policy l).final_possible ≠ 0 →
      (categoryResultFor g wp policy l).final_pct =
        some ((categoryResultFor g wp policy l).final_earned /
          (categoryResultFor g wp policy l).final_possible * 100)) := by
  have hnn := foldl_possible_le policy l (⟨0, 0⟩, ⟨0, 0⟩)
  have h1 := pctOf_spec (l.foldl (processAssignment policy) (⟨0, 0⟩, ⟨0, 0⟩)).1 hnn.1
  have h2 := pctOf_spec (l.foldl (processAssignment policy) (⟨0, 0⟩, ⟨0, 0⟩)).2 hnn.2
  exact ⟨hnn.1, h1.1, h1.2, hnn.2, h2.1, h2.2⟩

/-- Witness for claim C7 at a one-assignment category. -/
theorem c7_pct_absent_iff_witness :
    (categoryResultFor sampleGroup samplePlan
        FinalPolicy.MISSING_ZERO_UPCOMING_IGNORE [scenarioA_graded]).running_pct =
      some ((categoryResultFor sampleGroup samplePlan
          FinalPolicy.MISSING_ZERO_UPCOMING_IGNORE [scenarioA_graded]).running_earned /
        (categoryResultFor sampleGroup samplePlan
          FinalPolicy.MISSING_ZERO_UPCOMING_IGNORE [scenarioA_graded]).running_possible * 100) :=
  (c7_pct_absent_iff sampleGroup samplePlan
      FinalPolicy.MISSING_ZERO_UPCOMING_IGNORE [scenarioA_graded]).2.2.1
    (by
      simp [categoryResultFor, computeTallies, processAssignment,
        FinalPolicy.MISSING_ZERO_UPCOMING_IGNORE, FinalPolicy.IGNORE_ALL,
        FinalPolicy.ALL_ZERO, scenarioA_graded, Assignment.pts,
        Assignment.is_graded, Assignment.clampedScore]
      norm_num)

/-- Claim C9: the effective policy and the effective weights are resolved
first-match-wins: CLI value if truthy, else the per-course config entry
under the string form of the course id, else under its numeric form, else
the configured default (for the policy a falsy default falls back to the
hard-coded `missing_zero_upcoming_ignore`; for the weights a `None`
default leaves the caller to use the Canvas group weights). -/
theorem c9_precedence (course_id : Int) (cli_w : Option StrDict)
    (cli_p : Option String) (cfg : Config) :
    (pyTruthyStr cli_p = true →
      get_effective_policy course_id cli_p cfg = cli_p.getD "") ∧
    (pyTruthyStr cli_p = false → ∀ p,
      keyLookup cfg.policy_by_course_id (ConfigKey.str (toString course_id)) = some p →
      get_effective_policy course_id cli_p cfg = p) ∧
    (pyTruthyStr cli_p = false →
      keyLookup cfg.policy_by_course_id (ConfigKey.str (toString course_id)) = none →
      ∀ p, keyLookup cfg.policy_by_course_id (ConfigKey.int course_id) = some p →
      get_effective_policy course_id cli_p cfg = p) ∧
    (pyTruthyStr cli_p = false →
      keyLookup cfg.policy_by_course_id (ConfigKey.str (toString course_id)) = none →
      keyLookup cfg.policy_by_course_id (ConfigKey.int course_id) = none →
      pyTruthyStr cfg.policy_default = true →
      get_effective_policy course_id cli_p cfg = cfg.policy_default.getD "") ∧
    (pyTruthyStr cli_p = false →
      keyLookup cfg.policy_by_course_id (ConfigKey.str (toString course_id)) = none →
      keyLookup cfg.policy_by_course_id (ConfigKey.int course_id) = none →
      pyTruthyStr cfg.policy_default = false →
      get_effective_policy course_id cli_p cfg =
        FinalPolicy.MISSING_ZERO_UPCOMING_IGNORE) ∧
    (pyTruthyDict cli_w = true →
      get_effective_weights course_id cli_w cfg = cli_w) ∧
    (pyTruthyDict cli_w = false → ∀ w,
      keyLookup cfg.weights_by_course_id (ConfigKey.str (toString course_id)) = some w →
      get_effective_weights course_id cli_w cfg = some w) ∧
    (pyTruthyDict cli_w = false →
      keyLookup cfg.weights_by_course_id (ConfigKey.str (toString course_id)) = none →
      ∀ w, keyLookup cfg.weights_by_course_id (ConfigKey.int course_id) = some w →
      get_effective_weights course_id cli_w cfg = some w) ∧
    (pyTruthyDict cli_w = false →
      keyLookup cfg.weights_by_course_id (ConfigKey.str (toString course_id)) = none →
      keyLookup cfg.weights_by_course_id (ConfigKey.int course_id) = none →
      get_effective_weights course_id cli_w cfg = cfg.weights_default) := by
  refine ⟨?_, ?_, ?_, ?_, ?_, ?_, ?_, ?_, ?_⟩
  · intro h
    simp [get_effective_policy, h]
  · intro h p hs
    simp [get_effective_policy, h, hs]
  · intro h hs p hi
    simp [get_effective_policy, h, hs, hi]
  · intro h hs hi hd
    simp [get_effective_policy, h, hs, hi, hd]
  · intro h hs hi hd
    simp [get_effective_policy, h, hs, hi, hd]
  · intro h
    simp [get_effective_weights, h]
  · intro h w hs
    simp [get_effective_weights, h, hs]
  · intro h hs w hi
    simp [get_effective_weights, h, hs, hi]
  · intro h hs hi
    simp [get_effective_weights, h, hs, hi]

/-- Witness for claim C9: a truthy CLI policy wins over the sample
config's per-course entry and default. -/
theorem c9_precedence_witness :
    get_effective_policy 101 (some "all_zero") sampleConfig = "all_zero" :=
  (c9_precedence 101 none (some "all_zero") sampleConfig).1 (by decide)

/-- The clamped score is never negative. -/
theorem clampedScore_nonneg (a : Assignment) : 0 ≤ a.clampedScore :=
  le_max_left 0 _

/-- One tally step keeps the `all_zero` and `missing_zero_upcoming_ignore`
final tallies related: equal earned points, and the missing-zero possible
total never exceeds the all-zero possible total. -/
theorem processAssignment_all_zero_vs_missing (a : Assignment)
    (accA accM : Tally × Tally)
    (he : (accA.2).earned = (accM.2).earned)
    (hp : (accM.2).possible ≤ (accA.2).possible)
    (hee : 0 ≤ (accM.2).earned) :
    ((processAssignment FinalPolicy.ALL_ZERO accA a).2).earned =
      ((processAssignment FinalPolicy.MISSING_ZERO_UPCOMING_IGNORE accM a).2).earned ∧
    ((processAssignment FinalPolicy.MISSING_ZERO_UPCOMING_IGNORE accM a).2).possible ≤
      ((processAssignment FinalPolicy.ALL_ZERO accA a).2).possible ∧
    0 ≤ ((processAssignment FinalPolicy.MISSING_ZERO_UPCOMING_IGNORE accM a).2).earned := by
  have hcs := clampedScore_nonneg a
  by_cases hpub : !(a.published.getD false)
  · simp [processAssignment, hpub, he, hp, hee]
  · by_cases hpts : a.pts ≤ 0
    · simp [processAssignment, hpub, hpts, he, hp, hee]
    · have h0 : 0 < a.pts := not_le.mp hpts
      by_cases hg : a.is_graded
      · simp only [processAssignment, hpub, hpts, hg, FinalPolicy.ALL_ZERO,
          FinalPolicy.MISSING_ZERO_UPCOMING_IGNORE, FinalPolicy.IGNORE_ALL,
          if_false, if_true, Bool.false_eq_true, ite_true, ite_false]
        simp
        refine ⟨by rw [he], by linarith, by linarith⟩
      · by_cases hm : a.is_missing
        · simp only [processAssignment, hpub, hpts, hg, hm,
            FinalPolicy.ALL_ZERO, FinalPolicy.MISSING_ZERO_UPCOMING_IGNORE,
            FinalPolicy.IGNORE_ALL]
          simp
          refine ⟨he, by linarith, hee⟩
        · simp only [processAssignment, hpub, hpts, hg, hm,
            FinalPolicy.ALL_ZERO, FinalPolicy.MISSING_ZERO_UPCOMING_IGNORE,
            FinalPolicy.IGNORE_ALL]
          simp
          refine ⟨he, by linarith, hee⟩

/-- The tally-fold version of the previous step invariant. -/
theorem foldl_all_zero_vs_missing (l : List Assignment)
    (accA accM : Tally × Tally)
    (he : (accA.2).earned = (accM.2).earned)
    (hp : (accM.2).possible ≤ (accA.2).possible)
    (hee : 0 ≤ (accM.2).earned) :
    ((l.foldl (processAssignment FinalPolicy.ALL_ZERO) accA).2).earned =
      ((l.foldl (processAssignment FinalPolicy.MISSING_ZERO_UPCOMING_IGNORE) accM).2).earned ∧
    ((l.foldl (processAssignment FinalPolicy.MISSING_ZERO_UPCOMING_IGNORE) accM).2).possible ≤
      ((l.foldl (processAssignment FinalPolicy.ALL_ZERO) accA).2).possible ∧
    0 ≤ ((l.foldl (processAssignment FinalPolicy.MISSING_ZERO_UPCOMING_IGNORE) accM).2).earned := by
  induction l generalizing accA accM with
  | nil => exact ⟨he, hp, hee⟩
  | cons a rest ih =>
      simp only [List.foldl_cons]
      have h := processAssignment_all_zero_vs_missing a accA accM he hp hee
      exact ih _ _ h.1 h.2.1 h.2.2

/-- Claim C3: on the same category, a final percentage computed under
`all_zero` never exceeds the one computed under
`missing_zero_upcoming_ignore`, whenever both are present. -/
theorem c3_all_zero_le_missing (l : List Assignment) (pa pm : ℚ)
    (ha : pctOf (computeTallies FinalPolicy.ALL_ZERO l).2 = some pa)
    (hm : pctOf (computeTallies FinalPolicy.MISSING_ZERO_UPCOMING_IGNORE l).2 = some pm) :
    pa ≤ pm := by
  have hinv := foldl_all_zero_vs_missing l (⟨0, 0⟩, ⟨0, 0⟩) (⟨0, 0⟩, ⟨0, 0⟩)
    rfl le_rfl le_rfl
  unfold computeTallies at ha hm
  rcases ite_eq_iff.mp ha with ⟨hApos, hav⟩ | ⟨_, hbad⟩
  · rcases ite_eq_iff.mp hm with ⟨hMpos, hmv⟩ | ⟨_, hbad⟩
    · obtain rfl := Option.some.inj hav
      obtain rfl := Option.some.inj hmv
      set tA := (l.foldl (processAssignment FinalPolicy.ALL_ZERO) (⟨0, 0⟩, ⟨0, 0⟩)).2
      set tM := (l.foldl (processAssignment FinalPolicy.MISSING_ZERO_UPCOMING_IGNORE) (⟨0, 0⟩, ⟨0, 0⟩)).2
      have hdiv : tA.earned / tA.possible ≤ tM.earned / tM.possible := by
        rw [hinv.1, div_le_div_iff hApos hMpos]
        have h1 := hinv.2.1
        have h2 := hinv.2.2
        nlinarith
      nlinarith [hdiv]
    · cases hbad
  · cases hbad

/-- Witness for claim C3 on Scenario A's assignments: 40 ≤ 80. -/
theorem c3_all_zero_le_missing_witness : (40 : ℚ) ≤ 80 :=
  c3_all_zero_le_missing [scenarioA_graded, scenarioA_ungraded] 40 80
    (by
      simp [pctOf, computeTallies, processAssignment, FinalPolicy.ALL_ZERO,
        FinalPolicy.IGNORE_ALL, FinalPolicy.MISSING_ZERO_UPCOMING_IGNORE,
        scenarioA_graded, scenarioA_ungraded, Assignment.pts,
        Assignment.is_graded, Assignment.is_missing, Assignment.clampedScore]
      norm_num)
    (by
      simp [pctOf, computeTallies, processAssignment, FinalPolicy.ALL_ZERO,
        FinalPolicy.IGNORE_ALL, FinalPolicy.MISSING_ZERO_UPCOMING_IGNORE,
        scenarioA_graded, scenarioA_ungraded, Assignment.pts,
        Assignment.is_graded, Assignment.is_missing, Assignment.clampedScore]
      norm_num)

/-- One rollup step keeps the running and final sums between 0 and the
accumulated weight, provided the category's present percentages lie in
[0, 100]. -/
theorem rollupStep_bounds (init : ℚ × ℚ × ℚ) (c : CategoryResult)
    (hcr : ∀ p, c.running_pct = some p → 0 ≤ p ∧ p ≤ 100)
    (hcf : ∀ p, c.final_pct = some p → 0 ≤ p ∧ p ≤ 100)
    (h10 : 0 ≤ init.1) (h1w : init.1 ≤ init.2.2)
    (h20 : 0 ≤ init.2.1) (h2w : init.2.1 ≤ init.2.2) :
    0 ≤ (rollupStep init c).1 ∧
    (rollupStep init c).1 ≤ (rollupStep init c).2.2 ∧
    0 ≤ (rollupStep init c).2.1 ∧
    (rollupStep init c).2.1 ≤ (rollupStep init c).2.2 := by
  unfold rollupStep
  by_cases hw : c.weight_pct ≤ 0
  · simp only [hw, if_true]
    exact ⟨h10, h1w, h20, h2w⟩
  · have hw0 : 0 < c.weight_pct := not_le.mp hw
    simp only [hw, if_false]
    rcases hr : c.running_pct with _ | pr <;> rcases hf : c.final_pct with _ | pf <;>
      simp only [pctContrib] <;>
      refine ⟨?_, ?_, ?_, ?_⟩ <;>
      first
        | linarith
        | nlinarith [hcr pr hr]
        | nlinarith [hcf pf hf]

/-- Fold version of the rollup bounds invariant. -/
theorem rollup_foldl_bounds (cats : List CategoryResult)
    (h : ∀ c ∈ cats,
      (∀ p, c.running_pct = some p → 0 ≤ p ∧ p ≤ 100) ∧
      (∀ p, c.final_pct = some p → 0 ≤ p ∧ p ≤ 100))
    (init : ℚ × ℚ × ℚ)
    (h10 : 0 ≤ init.1) (h1w : init.1 ≤ init.2.2)
    (h20 : 0 ≤ init.2.1) (h2w : init.2.1 ≤ init.2.2) :
    0 ≤ (cats.foldl rollupStep init).1 ∧
    (cats.foldl rollupStep init).1 ≤ (cats.foldl rollupStep init).2.2 ∧
    0 ≤ (cats.foldl rollupStep init).2.1 ∧
    (cats.foldl rollupStep init).2.1 ≤ (cats.foldl rollupStep init).2.2 := by
  induction cats generalizing init with
  | nil => exact ⟨h10, h1w, h20, h2w⟩
  | cons c rest ih =>
      simp only [List.foldl_cons]
      have hc := h c (List.mem_cons_self c rest)
      have hs := rollupStep_bounds init c hc.1 hc.2 h10 h1w h20 h2w
      exact ih (fun x hx => h x (List.mem_cons_of_mem c hx)) (rollupStep init c)
        hs.1 hs.2.1 hs.2.2.1 hs.2.2.2

/-- Claim C8: when every category has positive weight and every present
percentage lies in [0, 100], both rollup totals, when present, lie in
[0, 100]. -/
theorem c8_rollup_bounds (cats : List CategoryResult)
    (hw : ∀ c ∈ cats, 0 < c.weight_pct)
    (hp : ∀ c ∈ cats,
      (∀ p, c.running_pct = some p → 0 ≤ p ∧ p ≤ 100) ∧
      (∀ p, c.final_pct = some p → 0 ≤ p ∧ p ≤ 100)) :
    (∀ x, (weighted_total cats).1 = some x → 0 ≤ x ∧ x ≤ 100) ∧
    (∀ x, (weighted_total cats).2 = some x → 0 ≤ x ∧ x ≤ 100) := by
  have hb : 0 ≤ (rollupAcc cats).1 ∧ (rollupAcc cats).1 ≤ (rollupAcc cats).2.2 ∧
      0 ≤ (rollupAcc cats).2.1 ∧ (rollupAcc cats).2.1 ≤ (rollupAcc cats).2.2 :=
    rollup_foldl_bounds cats hp (0, 0, 0) le_rfl le_rfl le_rfl le_rfl
  by_cases hz : (rollupAcc cats).2.2 = 0
  · have hWT : weighted_total cats = (none, none) := by
      unfold weighted_total
      rw [if_pos hz]
    rw [hWT]
    constructor <;> intro x hx <;> cases hx
  · have hWT : weighted_total cats =
        (some ((rollupAcc cats).1 * (100 / (rollupAcc cats).2.2)),
         some ((rollupAcc cats).2.1 * (100 / (rollupAcc cats).2.2))) := by
      unfold weighted_total
      rw [if_neg hz]
    have hwt : 0 < (rollupAcc cats).2.2 :=
      lt_of_le_of_ne (le_trans hb.1 hb.2.1) (Ne.symm hz)
    have hscale : (rollupAcc cats).2.2 * (100 / (rollupAcc cats).2.2) = 100 := by
      rw [mul_comm, div_mul_cancel₀]
      exact hz
    have hscale0 : 0 ≤ 100 / (rollupAcc cats).2.2 := by positivity
    rw [hWT]
    constructor
    · intro x hx
      obtain rfl := Option.some.inj hx
      refine ⟨mul_nonneg hb.1 hscale0, ?_⟩
      calc (rollupAcc cats).1 * (100 / (rollupAcc cats).2.2)
          ≤ (rollupAcc cats).2.2 * (100 / (rollupAcc cats).2.2) :=
            mul_le_mul_of_nonneg_right hb.2.1 hscale0
        _ = 100 := hscale
    · intro x hx
      obtain rfl := Option.some.inj hx
      refine ⟨mul_nonneg hb.2.2.1 hscale0, ?_⟩
      calc (rollupAcc cats).2.1 * (100 / (rollupAcc cats).2.2)
          ≤ (rollupAcc cats).2.2 * (100 / (rollupAcc cats).2.2) :=
            mul_le_mul_of_nonneg_right hb.2.2.2 hscale0
        _ = 100 := hscale

/-- Witness for claim C8: a single 90% category of weight 40 rolls up to
90, which the theorem places in [0, 100]. -/
theorem c8_rollup_bounds_witness : (0 : ℚ) ≤ 90 ∧ (90 : ℚ) ≤ 100 :=
  (c8_rollup_bounds [scenarioC_hw]
      (by
        intro c hc
        rcases List.mem_singleton.mp hc with rfl
        norm_num [scenarioC_hw])
      (by
        intro c hc
        rcases List.mem_singleton.mp hc with rfl
        constructor <;> (intro p hp; rw [show p = (90 : ℚ) from
          (Option.some.inj hp.symm)]) <;> norm_num)).1 90
    (by norm_num [weighted_total, rollupAcc, rollupStep, pctContrib, scenarioC_hw])

/-- The running sum of the rollup fold never changes when every
positive-weight category has an absent running percentage. -/
theorem rollup_foldl_fst_frozen (cats : List CategoryResult)
    (init : ℚ × ℚ × ℚ)
    (h : ∀ c ∈ cats, 0 < c.weight_pct → c.running_pct = none) :
    (cats.foldl rollupStep init).1 = init.1 := by
  induction cats generalizing init with
  | nil => rfl
  | cons c rest ih =>
      simp only [List.foldl_cons]
      rw [ih _ (fun x hx hw => h x (List.mem_cons_of_mem c hx) hw)]
      unfold rollupStep
      by_cases hw : c.weight_pct ≤ 0
      · simp [hw]
      · have hn := h c (List.mem_cons_self c rest) (not_le.mp hw)
        simp [hw, hn, pctContrib]

/-- The final sum of the rollup fold never changes when every
positive-weight category has an absent final percentage. -/
theorem rollup_foldl_finalsum_frozen (cats : List CategoryResult)
    (init : ℚ × ℚ × ℚ)
    (h : ∀ c ∈ cats, 0 < c.weight_pct → c.final_pct = none) :
    (cats.foldl rollupStep init).2.1 = init.2.1 := by
  induction cats generalizing init with
  | nil => rfl
  | cons c rest ih =>
      simp only [List.foldl_cons]
      rw [ih _ (fun x hx hw => h x (List.mem_cons_of_mem c hx) hw)]
      unfold rollupStep
      by_cases hw : c.weight_pct ≤ 0
      · simp [hw]
      · have hn := h c (List.mem_cons_self c rest) (not_le.mp hw)
        simp [hw, hn, pctContrib]

/-- The accumulated weight of the rollup fold never shrinks. -/
theorem rollup_foldl_wt_le (cats : List CategoryResult) (init : ℚ × ℚ × ℚ) :
    init.2.2 ≤ (cats.foldl rollupStep init).2.2 := by
  induction cats generalizing init with
  | nil => exact le_rfl
  | cons c rest ih =>
      simp only [List.foldl_cons]
      refine le_trans ?_ (ih (rollupStep init c))
      unfold rollupStep
      by_cases hw : c.weight_pct ≤ 0
      · simp [hw]
      · have hw0 : 0 < c.weight_pct := not_le.mp hw
        simp only [hw, if_false]
        linarith

/-- The accumulated weight is positive once some category contributes a
positive weight. -/
theorem rollup_foldl_wt_pos (cats : List CategoryResult) (init : ℚ × ℚ × ℚ)
    (h0 : 0 ≤ init.2.2) (hex : ∃ c ∈ cats, 0 < c.weight_pct) :
    0 < (cats.foldl rollupStep init).2.2 := by
  induction cats generalizing init with
  | nil =>
      rcases hex with ⟨c, hc, _⟩
      cases hc
  | cons c rest ih =>
      simp only [List.foldl_cons]
      rcases hex with ⟨d, hd, hdw⟩
      rcases List.mem_cons.mp hd with rfl | hd'
      · have hstep : 0 < (rollupStep init d).2.2 := by
          unfold rollupStep
          simp only [not_le.mpr hdw, if_false]
          linarith
        exact lt_of_lt_of_le hstep (rollup_foldl_wt_le rest _)
      · refine ih _ ?_ ⟨d, hd', hdw⟩
        unfold rollupStep
        by_cases hw : c.weight_pct ≤ 0
        · simpa [hw] using h0
        · have hw0 : 0 < c.weight_pct := not_le.mp hw
          simp only [hw, if_false]
          linarith

/-- Claim C10: with at least one positive-weight category but no present
percentage among positive-weight categories, the rollup reports a present
total of exactly 0 (running and final respectively), never an absent
value. -/
theorem c10_rollup_zero_not_absent (cats : List CategoryResult)
    (hex : ∃ c ∈ cats, 0 < c.weight_pct) :
    ((∀ c ∈ cats, 0 < c.weight_pct → c.running_pct = none) →
      (weighted_total cats).1 = some 0) ∧
    ((∀ c ∈ cats, 0 < c.weight_pct → c.final_pct = none) →
      (weighted_total cats).2 = some 0) := by
  have hwt : 0 < (rollupAcc cats).2.2 :=
    rollup_foldl_wt_pos cats (0, 0, 0) le_rfl hex
  have hWT : weighted_total cats =
      (some ((rollupAcc cats).1 * (100 / (rollupAcc cats).2.2)),
       some ((rollupAcc cats).2.1 * (100 / (rollupAcc cats).2.2))) := by
    unfold weighted_total
    rw [if_neg hwt.ne']
  constructor
  · intro h
    have hfst : (rollupAcc cats).1 = 0 :=
      rollup_foldl_fst_frozen cats (0, 0, 0) h
    rw [hWT]
    simp [hfst]
  · intro h
    have hsnd : (rollupAcc cats).2.1 = 0 :=
      rollup_foldl_finalsum_frozen cats (0, 0, 0) h
    rw [hWT]
    simp [hsnd]

/-- Witness for claim C10: one weighted category with no percentages
rolls up to a present 0%. -/
theorem c10_rollup_zero_not_absent_witness :
    (weighted_total [emptyWeightedCat]).1 = some 0 :=
  (c10_rollup_zero_not_absent [emptyWeightedCat]
      ⟨emptyWeightedCat, List.mem_singleton_self _,
        by norm_num [emptyWeightedCat]⟩).1
    (by
      intro c hc _
      rcases List.mem_singleton.mp hc with rfl
      rfl)

end Canvas
